import Mathlib

/-!
Verification of the CPA monitoring core (monitor.py, app.py).

Python floats are modelled as rationals (ℚ), counters as ℕ. A Python
float division, which raises ZeroDivisionError on a zero denominator, is
modelled by `pyDiv`, returning `none` exactly when the source would raise.
-/

namespace CpaMonitor

/-! ### Python string primitives

The string methods the source uses (`strip`, `lower`, `upper`,
`split`, `int(...)`, `in`) are embedded as structurally-recursive
functions over the character list of the string, so that concrete
inputs evaluate by kernel reduction. -/

/-- The ASCII whitespace `str.strip()` removes. -/
def isSpaceChar (c : Char) : Bool :=
  c = ' ' || c = '\t' || c = '\n' || c = '\r'

/-- `str.strip()` on the character list. -/
def trimChars (l : List Char) : List Char :=
  ((l.dropWhile isSpaceChar).reverse.dropWhile isSpaceChar).reverse

/-- Python `str.strip()`. -/
def pyStrip (s : String) : String := String.mk (trimChars s.data)

/-- ASCII lower-casing of one character. -/
def lowerChar (c : Char) : Char :=
  if 'A' ≤ c ∧ c ≤ 'Z' then Char.ofNat (c.toNat + 32) else c

/-- ASCII upper-casing of one character. -/
def upperChar (c : Char) : Char :=
  if 'a' ≤ c ∧ c ≤ 'z' then Char.ofNat (c.toNat - 32) else c

/-- Python `str.lower()` (ASCII range). -/
def pyLower (s : String) : String := String.mk (s.data.map lowerChar)

/-- Python `str.upper()` (ASCII range). -/
def pyUpper (s : String) : String := String.mk (s.data.map upperChar)

/-- `str.split(sep)` for a one-character separator: separators delimit
fields, empty fields preserved. -/
def splitOnChar (sep : Char) : List Char → List (List Char)
  | [] => [[]]
  | c :: cs =>
    match splitOnChar sep cs with
    | [] => [[]]
    | p :: ps => if c = sep then [] :: p :: ps else (c :: p) :: ps

/-- Python `str.split(sep)` with a one-character separator. -/
def pySplit (s : String) (sep : Char) : List String :=
  (splitOnChar sep s.data).map String.mk

/-- Numeric value of a decimal digit character. -/
def digitVal (c : Char) : ℕ := c.toNat - 48

/-- Python `int(s)` on the clean digit strings the sheet holds: `none`
models the raised ValueError on anything else (the tolerance of
`int()` for surrounding whitespace and a sign is elided — no cell the
claims touch carries either). -/
def pyInt? (s : String) : Option ℕ :=
  if s.data ≠ [] ∧ s.data.all Char.isDigit then
    some (s.data.foldl (fun acc c => acc * 10 + digitVal c) 0)
  else none

/-- Whether `pat` begins the list. -/
def startsWithChars : List Char → List Char → Bool
  | [], _ => true
  | _ :: _, [] => false
  | p :: ps, c :: cs => p = c && startsWithChars ps cs

/-- Whether `pat` occurs anywhere in the list. -/
def containsChars (pat : List Char) : List Char → Bool
  | [] => startsWithChars pat []
  | c :: cs => startsWithChars pat (c :: cs) || containsChars pat cs

/-- Python's substring test `pat in s`. -/
def pyContains (s pat : String) : Bool := containsChars pat.data s.data

/-- Python float division: `none` models a raised ZeroDivisionError. -/
def pyDiv (a b : ℚ) : Option ℚ :=
  if b = 0 then none else some (a / b)

/-- The `PublisherMetrics` dataclass of monitor.py, one record per
publisher per window.  Every numeric field defaults to zero, as in the
dataclass.  `sales_display` models the attribute set dynamically by
`enhance_metrics_with_accurate_cpa` (absent encoded as `none`). -/
structure PublisherMetrics where
  publisher_name : String
  incoming : ℕ := 0
  live : ℕ := 0
  completed : ℕ := 0
  ended : ℕ := 0
  connected : ℕ := 0
  paid : ℕ := 0
  converted : ℕ := 0
  no_connect : ℕ := 0
  duplicate : ℕ := 0
  blocked : ℕ := 0
  ivr_hangup : ℕ := 0
  revenue : ℚ := 0
  payout : ℚ := 0
  profit : ℚ := 0
  margin : ℚ := 0
  conversion_percent : ℚ := 0
  tcl_seconds : ℕ := 0
  acl_seconds : ℕ := 0
  total_cost : ℚ := 0
  sales_count : ℕ := 0
  accurate_cpa : ℚ := 0
  sales_display : Option String := none
deriving DecidableEq, Repr

/-- The `cpa` property: `payout / completed`, returning `0.0` when
`completed == 0` instead of dividing. -/
def PublisherMetrics.cpa (m : PublisherMetrics) : Option ℚ :=
  if m.completed = 0 then some 0 else pyDiv m.payout (m.completed : ℚ)

/-- `calculate_accurate_cpa`: `payout / sales_count`, returning `0.0`
when the given `sales_count` is zero instead of dividing. -/
def PublisherMetrics.calculate_accurate_cpa (m : PublisherMetrics) (sales_count : ℕ) : Option ℚ :=
  if sales_count = 0 then some 0 else pyDiv m.payout (sales_count : ℚ)

/-- One step of the accumulation loop in `calculate_totals`: the fields
the loop body adds are exactly these seventeen; `margin`,
`conversion_percent`, `acl_seconds` and `accurate_cpa` are not touched
by the loop. -/
def addMetric (t m : PublisherMetrics) : PublisherMetrics :=
  { t with
    incoming := t.incoming + m.incoming
    live := t.live + m.live
    completed := t.completed + m.completed
    ended := t.ended + m.ended
    connected := t.connected + m.connected
    paid := t.paid + m.paid
    converted := t.converted + m.converted
    no_connect := t.no_connect + m.no_connect
    duplicate := t.duplicate + m.duplicate
    blocked := t.blocked + m.blocked
    ivr_hangup := t.ivr_hangup + m.ivr_hangup
    revenue := t.revenue + m.revenue
    payout := t.payout + m.payout
    profit := t.profit + m.profit
    total_cost := t.total_cost + m.total_cost
    tcl_seconds := t.tcl_seconds + m.tcl_seconds
    sales_count := t.sales_count + m.sales_count }

/-- `RingbaMonitor.calculate_totals`: folds `addMetric` over the list
starting from a fresh record named "TOTALS", then recomputes
`conversion_percent` (only when summed `incoming > 0`) and
`accurate_cpa` (zero when summed `sales_count == 0`).  The guarded
divisions have nonzero denominators, so total rational division
coincides with the source's float division there. -/
def calculate_totals (metrics : List PublisherMetrics) : PublisherMetrics :=
  let t := metrics.foldl addMetric { publisher_name := "TOTALS" }
  let t1 := if 0 < t.incoming then
      { t with conversion_percent := ((t.converted : ℚ) / (t.incoming : ℚ)) * 100 }
    else t
  if 0 < t.sales_count then { t1 with accurate_cpa := t.payout / (t.sales_count : ℚ) }
  else { t1 with accurate_cpa := 0 }

/-- `sales_data.get(name, 0)` on the sales dict, modelled as an
association list (a Python dict: keys unique, insertion-ordered). -/
def lookupCount (sales : List (String × ℕ)) (n : String) : ℕ :=
  (sales.lookup n).getD 0

/-- The first loop of `enhance_metrics_with_accurate_cpa`: set
`sales_count` from the dict (default 0) and `accurate_cpa` to
`payout / sales_count` when positive, else `0.0`.  In the positive
branch `calculate_accurate_cpa` is called with a nonzero count, so its
division is written as total rational division. -/
def enrich (sales : List (String × ℕ)) (m : PublisherMetrics) : PublisherMetrics :=
  let sc := lookupCount sales m.publisher_name
  if 0 < sc then { m with sales_count := sc, accurate_cpa := m.payout / (sc : ℚ) }
  else { m with sales_count := sc, accurate_cpa := 0 }

/-- The synthesized record for a publisher that has sales in the sheet
but no Ringba record: all call/payout fields at their zero defaults,
plus the "X Sales/No$" display rule of the source (its condition
`payout == 0.0 and sales_count > 0` is embedded as written). -/
def mkSalesOnlyMetric (n : String) (sc : ℕ) : PublisherMetrics :=
  let base : PublisherMetrics := { publisher_name := n, sales_count := sc }
  if base.payout = 0 ∧ 0 < sc then
    { base with sales_display := some (toString sc ++ " Sales/No$"), accurate_cpa := 0 }
  else
    { base with accurate_cpa := if sc = 0 then 0 else base.payout / (sc : ℚ) }

/-- `RingbaMonitor.enhance_metrics_with_accurate_cpa`, with the
spreadsheet fetch result passed in as `sales_data` (the fetch itself is
an external collaborator).  Enriches every provider record in place,
then appends a synthesized record for every dict entry whose name is
not among the provider names and whose count is positive. -/
def enhance_metrics_with_accurate_cpa (metrics : List PublisherMetrics)
    (sales_data : List (String × ℕ)) : List PublisherMetrics :=
  let enriched := metrics.map (enrich sales_data)
  let existing := enriched.map (fun m => m.publisher_name)
  enriched ++
    (sales_data.filter (fun nc => !(existing.contains nc.1) && decide (0 < nc.2))).map
      (fun nc => mkSalesOnlyMetric nc.1 nc.2)

/-- One row of the Ringba insights response
(`data["report"]["records"]`).  The numeric cells are modelled after the
`safe_int`/`safe_float` coercion of `_parse_ringba_data` has been
applied (no claim concerns that string-to-number coercion); the
publisher-name cell is kept raw, `none` meaning the key is absent
(`row.get("publisherName", "")`). -/
structure RingbaRecord where
  publisherName : Option String := none
  callCount : ℕ := 0
  liveCallCount : ℕ := 0
  completedCalls : ℕ := 0
  endedCalls : ℕ := 0
  connectedCallCount : ℕ := 0
  payoutCount : ℕ := 0
  convertedCalls : ℕ := 0
  nonConnectedCallCount : ℕ := 0
  duplicateCalls : ℕ := 0
  blockedCalls : ℕ := 0
  incompleteCalls : ℕ := 0
  conversionAmount : ℚ := 0
  payoutAmount : ℚ := 0
  profitGross : ℚ := 0
  profitMarginGross : ℚ := 0
  convertedPercent : ℚ := 0
  callLengthInSeconds : ℕ := 0
  avgHandleTime : ℕ := 0
  totalCost : ℚ := 0
deriving DecidableEq, Repr

/-- The per-row body of `_parse_ringba_data`: a blank, whitespace-only
or case-variant "unknown"/"missing" publisher name is coerced to the
label "Unknown Publisher" and the record kept; only a record whose raw
name is non-empty and case-insensitively exactly "MISSING" is skipped
(`none`). -/
def parse_ringba_row (row : RingbaRecord) : Option PublisherMetrics :=
  let publisher_name0 := row.publisherName.getD ""
  let raw_publisher_name := publisher_name0
  let publisher_name :=
    if publisher_name0 = "" ∨ pyStrip publisher_name0 = "" ∨
        pyLower (pyStrip publisher_name0) = "unknown" ∨
        pyLower (pyStrip publisher_name0) = "missing" then
      "Unknown Publisher"
    else publisher_name0
  if raw_publisher_name ≠ "" ∧ pyUpper raw_publisher_name = "MISSING" then none
  else some
    { publisher_name := publisher_name
      incoming := row.callCount
      live := row.liveCallCount
      completed := row.completedCalls
      ended := row.endedCalls
      connected := row.connectedCallCount
      paid := row.payoutCount
      converted := row.convertedCalls
      no_connect := row.nonConnectedCallCount
      duplicate := row.duplicateCalls
      blocked := row.blockedCalls
      ivr_hangup := row.incompleteCalls
      revenue := row.conversionAmount
      payout := row.payoutAmount
      profit := row.profitGross
      margin := row.profitMarginGross
      conversion_percent := row.convertedPercent
      tcl_seconds := row.callLengthInSeconds
      acl_seconds := row.avgHandleTime
      total_cost := row.totalCost }

/-- `RingbaMonitor._parse_ringba_data` over the record list. -/
def parse_ringba_data (rows : List RingbaRecord) : List PublisherMetrics :=
  rows.filterMap parse_ringba_row

/-! ## Time-window scheduler (`get_next_report_time`)

A wall-clock instant in the reporting timezone is a day number plus
hour/minute/second; day numbers are chosen so that `day % 7` equals
Python's `datetime.weekday()` (0 = Monday, ..., 6 = Sunday). -/

/-- The daily trigger hours of `get_next_report_time`. -/
def report_hours : List ℕ := [11, 13, 15, 17, 19, 21]

/-- The matching trigger minutes (5:05pm for the 5pm report). -/
def report_minutes : List ℕ := [0, 0, 0, 5, 0, 0]

/-- The Sunday skip after rolling to the next day.  The source's
`while next_day.weekday() == 6` loop runs at most once, because two
consecutive days are never both Sunday. -/
def skip_sunday (d : ℕ) : ℕ :=
  if d % 7 = 6 then d + 1 else d

/-- `RingbaMonitor.get_next_report_time` as a function of the current
EDT wall time `(day, h, m)` (the source reads the clock itself and
converts to/from UTC; the UTC round-trip preserves the instant, so the
schedule is stated in EDT wall time).  Scans today's timetable for the
first slot with `h < hour or (h == hour and m < minute)`; otherwise
rolls to 11:00 on the next day, skipping Sunday. -/
def get_next_report_time (day h m : ℕ) : ℕ × ℕ × ℕ :=
  match (report_hours.zip report_minutes).find?
      (fun hm => decide (h < hm.1 ∨ (h = hm.1 ∧ m < hm.2))) with
  | some hm => (day, hm.1, hm.2)
  | none => (skip_sunday (day + 1), 11, 0)

/-! ## Reporting cycle (`run_monitoring_cycle`, `send_slack_summary`)

A Python timezone-aware datetime is modelled as an absolute minute
count (UTC) plus a UTC-offset in minutes; `astimezone` changes only the
offset, `strftime` renders the wall clock `abs + off`.  Calendar dates
are elided from rendered labels (only the `%H:%M` components matter to
the claims); seconds/microseconds, zeroed by the source's `replace`,
are elided likewise. -/

structure PyDt where
  abs : ℤ
  off : ℤ
deriving DecidableEq, Repr

/-- Wall-clock minutes of the datetime in its own timezone. -/
def PyDt.wall (d : PyDt) : ℤ := d.abs + d.off

/-- `datetime.astimezone`: same instant, new offset. -/
def PyDt.astimezone (d : PyDt) (o : ℤ) : PyDt := ⟨d.abs, o⟩

/-- `datetime.hour` of the wall clock. -/
def PyDt.hour (d : PyDt) : ℤ := (d.wall.emod 1440) / 60

/-- `datetime.minute` of the wall clock. -/
def PyDt.minute (d : PyDt) : ℤ := d.wall.emod 60

/-- `datetime.replace(hour=h, minute=m, second=0, microsecond=0)`:
keep the wall-clock day, set the time of day. -/
def PyDt.replaceHM (d : PyDt) (h m : ℤ) : PyDt :=
  ⟨(d.wall.fdiv 1440) * 1440 + h * 60 + m - d.off, d.off⟩

/-- Build the instant with the given wall clock at the given offset. -/
def mkWall (day h m off : ℤ) : PyDt :=
  ⟨day * 1440 + h * 60 + m - off, off⟩

/-- The fixed EDT offset (UTC-4) used throughout monitor.py. -/
def edtOffset : ℤ := -240

inductive ReportType
  | twoHour
  | endOfDay
deriving DecidableEq, Repr

/-- The window-selection chain of `run_monitoring_cycle` (lines
633-666): given the current EDT hour, the EDT window `(startH, startM,
endH, endM)` to fetch and the report type, or `none` outside business
hours. -/
def run_window (current_hour : ℤ) : Option (ℤ × ℤ × ℤ × ℤ × ReportType) :=
  if 11 ≤ current_hour ∧ current_hour < 13 then some (9, 0, 11, 0, .twoHour)
  else if 13 ≤ current_hour ∧ current_hour < 15 then some (11, 0, 13, 0, .twoHour)
  else if 15 ≤ current_hour ∧ current_hour < 17 then some (13, 0, 15, 0, .twoHour)
  else if 17 ≤ current_hour ∧ current_hour < 19 then some (15, 0, 17, 5, .twoHour)
  else if 19 ≤ current_hour ∧ current_hour < 21 then some (17, 0, 19, 0, .twoHour)
  else if 21 ≤ current_hour then some (19, 0, 21, 0, .endOfDay)
  else none

/-- The reports one `run_monitoring_cycle` delivers: the selected EDT
window is built with `replace`, converted to UTC, and exactly one
summary is sent — `send_end_of_day_summary` when the type is
end-of-day, else `send_slack_summary` (the `if/else` at lines
685-690). -/
def run_monitoring_cycle_reports (now_utc : PyDt) : List (ReportType × PyDt × PyDt) :=
  let est_now := now_utc.astimezone edtOffset
  match run_window est_now.hour with
  | none => []
  | some (sh, sm, eh, em, ty) =>
    let start_time_est := est_now.replaceHM sh sm
    let end_time_est := est_now.replaceHM eh em
    [(ty, start_time_est.astimezone 0, end_time_est.astimezone 0)]

/-- Two-digit zero-padded rendering, as `%H`/`%M` produce. -/
def two_digit (n : ℤ) : String :=
  let k := n.toNat
  if k < 10 then "0" ++ toString k else toString k

/-- `strftime("%H:%M")` on an aware datetime: the wall clock of its own
timezone. -/
def strftimeHM (d : PyDt) : String :=
  two_digit d.hour ++ ":" ++ two_digit d.minute

/-- The `time_range` label built by `send_slack_summary` (line 420),
calendar-date components elided: the start and end datetimes it was
handed are rendered as-is and suffixed with the literal "EDT". -/
def time_range_label (start_time end_time : PyDt) : String :=
  strftimeHM start_time ++ " - " ++ strftimeHM end_time ++ " EDT"

/-- The user-facing window label of the summary a cycle sends: the
label `send_slack_summary`/`send_end_of_day_summary` renders from the
(UTC-converted) window bounds the cycle passes it. -/
def cycle_label (now_utc : PyDt) : Option String :=
  (run_monitoring_cycle_reports now_utc).head?.map
    (fun r => time_range_label r.2.1 r.2.2)

/-! ## Spreadsheet sales processing (`_process_spreadsheet_data`)

A spreadsheet row carries the string content of the three cells the
source reads; `"nan"` is what `str(...)` of a missing pandas cell
yields, `none` models an absent column. -/

structure SheetRow where
  lookupPublisher : Option String := none
  date : Option String := none
  time : Option String := none
deriving DecidableEq, Repr

/-- The wall-clock sale timestamp reconstructed by the source (fixed
UTC-4 timezone, seconds discarded). -/
structure SaleTime where
  year : ℕ
  month : ℕ
  day : ℕ
  hour : ℕ
  minute : ℕ
deriving DecidableEq, Repr

/-- Linearisation of a `SaleTime`; on component-wise in-range values
(month ≤ 12, day ≤ 31, hour ≤ 23, minute ≤ 59 — guaranteed by
`datetime`'s validation) key order is exactly `datetime` order at equal
UTC offsets. -/
def SaleTime.key (t : SaleTime) : ℕ :=
  (((t.year * 13 + t.month) * 32 + t.day) * 24 + t.hour) * 60 + t.minute

/-- The per-row body of `_process_spreadsheet_data`: publisher filter
("Not Found"/"nan"/blank rows skipped), then date (`M/D/YYYY`) and
12-hour time (`H:MM[:SS] [AM|PM]`) reconstruction, any parse or
`datetime` construction failure skipping the row (the source catches
the exception and continues).  `datetime`'s day-of-month validation is
coarsened to `day ≤ 31`. -/
def parse_sale_row (r : SheetRow) : Option (String × SaleTime) :=
  let publisher := r.lookupPublisher.getD "Not Found"
  if publisher = "Not Found" ∨ publisher = "nan" ∨ pyStrip publisher = "" then none
  else
    let date_str := r.date.getD ""
    let time_str := r.time.getD ""
    if date_str = "nan" ∨ time_str = "nan" ∨ pyStrip date_str = "" ∨ pyStrip time_str = "" then
      none
    else
      match pySplit date_str '/' with
      | [monthStr, dayStr, yearStr] =>
        match pyInt? monthStr, pyInt? dayStr, pyInt? yearStr with
        | some month, some day, some year =>
          if 1 ≤ month ∧ month ≤ 12 ∧ 1 ≤ day ∧ day ≤ 31 then
            if pyContains time_str ":" then
              match pySplit time_str ':' with
              | hourStr :: minuteStr :: _ =>
                match pyInt? hourStr, pyInt? minuteStr with
                | some hour0, some minute =>
                  let hour :=
                    if pyContains time_str "PM" ∧ hour0 ≠ 12 then hour0 + 12
                    else if pyContains time_str "AM" ∧ hour0 = 12 then 0
                    else hour0
                  if hour ≤ 23 ∧ minute ≤ 59 then
                    some (publisher, ⟨year, month, day, hour, minute⟩)
                  else none
                | _, _ => none
              | _ => none
            else none
          else none
        | _, _, _ => none
      | _ => none

/-- `sales_data[publisher] += 1` on the insertion-ordered dict
(initialising to 0 first when absent): increment the entry if the key
is present, else append it with count 1. -/
def bump : List (String × ℕ) → String → List (String × ℕ)
  | [], n => [(n, 1)]
  | kv :: rest, n => if kv.1 = n then (kv.1, kv.2 + 1) :: rest else kv :: bump rest n

/-- The loop body of `_process_spreadsheet_data`: a parseable row whose
timestamp satisfies the source's comparison
`start_edt <= sale_time <= end_edt` (both bounds inclusive) bumps its
publisher's count; every other row leaves the dict unchanged. -/
def process_row_step (start_edt end_edt : SaleTime) (sales_data : List (String × ℕ))
    (r : SheetRow) : List (String × ℕ) :=
  match parse_sale_row r with
  | some pt =>
    if start_edt.key ≤ pt.2.key ∧ pt.2.key ≤ end_edt.key then bump sales_data pt.1
    else sales_data
  | none => sales_data

/-- `RingbaMonitor._process_spreadsheet_data`: fold the loop body over
the rows, starting from the empty dict. -/
def process_spreadsheet_data (rows : List SheetRow) (start_edt end_edt : SaleTime) :
    List (String × ℕ) :=
  rows.foldl (process_row_step start_edt end_edt) []

/-! ## Ingestion endpoint (`app.py`)

The webhook body is modelled with the fields `ringba_webhook` reads;
`body.get(key, "")` defaults are baked in as `""`-valued fields, and
`call_id` is `none` when missing.  The `_ingested_at` timestamp
(`datetime.now`) is passed in as a parameter `now`. -/

structure WebhookBody where
  call_id : Option String := none
  callStartUtc : String := ""
  did : String := ""
  callerId : String := ""
  durationSec : String := ""
  disposition : String := ""
  campaignName : String := ""
  campaignId : String := ""
  target : String := ""
  publisherId : String := ""
  publisherName : String := ""
  payout : String := ""
  revenue : String := ""
deriving DecidableEq, Repr

/-- `normalize_did`: keep only digits, then the last 10 of them. -/
def normalize_did (did : String) : String :=
  let digits := did.toList.filter Char.isDigit
  if digits.length ≥ 10 then String.mk (digits.drop (digits.length - 10))
  else String.mk digits

/-- The 14-column row `ringba_webhook` assembles for the sheet. -/
def buildRow (b : WebhookBody) (cid now : String) : List String :=
  [cid, b.callStartUtc, b.did, normalize_did b.did, b.callerId, b.durationSec,
   b.disposition, (if b.campaignName = "" then b.campaignId else b.campaignName),
   b.target, b.publisherId, b.publisherName, b.payout, b.revenue, now]

/-- `MAX_QUEUE_SIZE`. -/
def maxQueueSize : ℕ := 100

/-- The mutable state the endpoint touches: the persistent
`processed_calls` table, the in-memory `background_writer_queue`, and
the downstream sheet (`append_to_sheet` target). -/
structure IngestState where
  processed : List String := []
  queue : List (List String) := []
  sink : List (List String) := []
deriving DecidableEq, Repr

/-- `mark_processed`: `INSERT OR IGNORE` into the dedup table. -/
def mark_processed (ps : List String) (cid : String) : List String :=
  if cid ∈ ps then ps else ps ++ [cid]

inductive WebhookResponse
  | badRequest
  | duplicateStatus
  | queued
deriving DecidableEq, Repr

/-- The `ringba_webhook` handler: 400 on a missing/empty `call_id`;
`duplicate` with no state change when the id is already processed;
otherwise the row is queued — or, when the queue already holds
`MAX_QUEUE_SIZE` entries, written through to the sheet immediately —
and the id marked processed, answering `queued` either way. -/
def ringba_webhook (s : IngestState) (b : WebhookBody) (now : String) :
    WebhookResponse × IngestState :=
  match b.call_id with
  | none => (.badRequest, s)
  | some cid =>
    if cid = "" then (.badRequest, s)
    else if cid ∈ s.processed then (.duplicateStatus, s)
    else
      let row := buildRow b cid now
      if s.queue.length ≥ maxQueueSize then
        (.queued, { s with sink := s.sink ++ [row], processed := mark_processed s.processed cid })
      else
        (.queued, { s with queue := s.queue ++ [row], processed := mark_processed s.processed cid })

/-- Rows recorded (buffered or persisted) for a given call id: the row
layout puts `call_id` first. -/
def rowsForCall (s : IngestState) (cid : String) : ℕ :=
  ((s.queue ++ s.sink).filter (fun r => r.head? = some cid)).length

/-! ## Concrete inputs used by witnesses and counterexamples -/

/-- A record with all fields at their zero defaults. -/
def zeroMetric : PublisherMetrics := { publisher_name := "Z" }

/-- The provider record of the end-to-end scenario of the spec. -/
def acmeMetric : PublisherMetrics := { publisher_name := "Acme", completed := 10, payout := 100 }

/-- The sales mapping of the end-to-end scenario of the spec. -/
def demoSales : List (String × ℕ) := [("Acme", 4), ("Beta", 1)]

/-- A record with nonzero `margin` and `acl_seconds`. -/
def marginExample : PublisherMetrics := { publisher_name := "A", margin := 1, acl_seconds := 2 }

/-- A provider row with the publisher-name key absent. -/
def blankRecord : RingbaRecord := {}

/-- A provider row whose publisher name is whitespace only. -/
def spaceRecord : RingbaRecord := { publisherName := some "  " }

/-- A sheet row whose reconstructed timestamp is exactly 5:00pm. -/
def boundaryRow : SheetRow :=
  { lookupPublisher := some "Publisher A", date := some "8/5/2025", time := some "5:00:30 PM" }

/-- A sheet row with the literal publisher text "nan" at an interior
timestamp. -/
def nanRow : SheetRow :=
  { lookupPublisher := some "nan", date := some "8/5/2025", time := some "4:00:00 PM" }

/-- Window start 3:00pm, 2025-08-05. -/
def windowStart : SaleTime := ⟨2025, 8, 5, 15, 0⟩

/-- Window end 5:00pm, 2025-08-05. -/
def windowEnd : SaleTime := ⟨2025, 8, 5, 17, 0⟩

/-- A well-formed webhook body. -/
def demoBody : WebhookBody :=
  { call_id := some "CA123", did := "+1 (555) 123-4567", publisherName := "Acme" }

/-- An ingestion state whose queue is at `MAX_QUEUE_SIZE`. -/
def fullQueueState : IngestState := { queue := List.replicate 100 [""] }

/-! ## Theorems -/

/-- Claim C3: the CPA zero-guards.  For every record, evaluating `cpa`
or `calculate_accurate_cpa` never raises (the `pyDiv` model never
returns `none`, and rationals have no NaN or infinity); with
`completed == 0` the `cpa` value is `0.0`, and with a zero sales count
`calculate_accurate_cpa` is `0.0`. -/
theorem c3_cpa_zero_guard (m : PublisherMetrics) (sc : ℕ) :
    (∃ q, m.cpa = some q) ∧ (m.completed = 0 → m.cpa = some 0) ∧
    (∃ q, m.calculate_accurate_cpa sc = some q) ∧
    (sc = 0 → m.calculate_accurate_cpa sc = some 0) := by
  refine ⟨?_, ?_, ?_, ?_⟩
  · by_cases h : m.completed = 0
    · exact ⟨0, by simp [PublisherMetrics.cpa, h]⟩
    · exact ⟨m.payout / (m.completed : ℚ), by simp [PublisherMetrics.cpa, h, pyDiv]⟩
  · intro h
    simp [PublisherMetrics.cpa, h]
  · by_cases h : sc = 0
    · exact ⟨0, by simp [PublisherMetrics.calculate_accurate_cpa, h]⟩
    · exact ⟨m.payout / (sc : ℚ), by simp [PublisherMetrics.calculate_accurate_cpa, h, pyDiv]⟩
  · intro h
    simp [PublisherMetrics.calculate_accurate_cpa, h]

/-- Witness for C3 at the all-zero record. -/
theorem c3_cpa_zero_guard_witness :
    zeroMetric.cpa = some 0 ∧ zeroMetric.calculate_accurate_cpa 0 = some 0 :=
  ⟨(c3_cpa_zero_guard zeroMetric 0).2.1 rfl, (c3_cpa_zero_guard zeroMetric 0).2.2.2 rfl⟩

/-- Closed form of the accumulation loop of `calculate_totals`: each of
the seventeen added fields ends at the accumulator's value plus the
list sum; every other field is untouched. -/
theorem foldl_addMetric (ms : List PublisherMetrics) (t : PublisherMetrics) :
    ms.foldl addMetric t =
      { t with
        incoming := t.incoming + (ms.map (fun m => m.incoming)).sum
        live := t.live + (ms.map (fun m => m.live)).sum
        completed := t.completed + (ms.map (fun m => m.completed)).sum
        ended := t.ended + (ms.map (fun m => m.ended)).sum
        connected := t.connected + (ms.map (fun m => m.connected)).sum
        paid := t.paid + (ms.map (fun m => m.paid)).sum
        converted := t.converted + (ms.map (fun m => m.converted)).sum
        no_connect := t.no_connect + (ms.map (fun m => m.no_connect)).sum
        duplicate := t.duplicate + (ms.map (fun m => m.duplicate)).sum
        blocked := t.blocked + (ms.map (fun m => m.blocked)).sum
        ivr_hangup := t.ivr_hangup + (ms.map (fun m => m.ivr_hangup)).sum
        revenue := t.revenue + (ms.map (fun m => m.revenue)).sum
        payout := t.payout + (ms.map (fun m => m.payout)).sum
        profit := t.profit + (ms.map (fun m => m.profit)).sum
        total_cost := t.total_cost + (ms.map (fun m => m.total_cost)).sum
        tcl_seconds := t.tcl_seconds + (ms.map (fun m => m.tcl_seconds)).sum
        sales_count := t.sales_count + (ms.map (fun m => m.sales_count)).sum } := by
  induction ms generalizing t with
  | nil => simp
  | cons m ms ih => simp [List.foldl_cons, ih, addMetric, add_assoc]

/-- Closed form of `calculate_totals`. -/
theorem calculate_totals_eq (ms : List PublisherMetrics) :
    calculate_totals ms =
      { publisher_name := "TOTALS"
        incoming := (ms.map (fun m => m.incoming)).sum
        live := (ms.map (fun m => m.live)).sum
        completed := (ms.map (fun m => m.completed)).sum
        ended := (ms.map (fun m => m.ended)).sum
        connected := (ms.map (fun m => m.connected)).sum
        paid := (ms.map (fun m => m.paid)).sum
        converted := (ms.map (fun m => m.converted)).sum
        no_connect := (ms.map (fun m => m.no_connect)).sum
        duplicate := (ms.map (fun m => m.duplicate)).sum
        blocked := (ms.map (fun m => m.blocked)).sum
        ivr_hangup := (ms.map (fun m => m.ivr_hangup)).sum
        revenue := (ms.map (fun m => m.revenue)).sum
        payout := (ms.map (fun m => m.payout)).sum
        profit := (ms.map (fun m => m.profit)).sum
        total_cost := (ms.map (fun m => m.total_cost)).sum
        tcl_seconds := (ms.map (fun m => m.tcl_seconds)).sum
        sales_count := (ms.map (fun m => m.sales_count)).sum
        margin := 0
        acl_seconds := 0
        conversion_percent :=
          if 0 < (ms.map (fun m => m.incoming)).sum then
            (((ms.map (fun m => m.converted)).sum : ℚ) /
              ((ms.map (fun m => m.incoming)).sum : ℚ)) * 100
          else 0
        accurate_cpa :=
          if 0 < (ms.map (fun m => m.sales_count)).sum then
            (ms.map (fun m => m.payout)).sum / ((ms.map (fun m => m.sales_count)).sum : ℚ)
          else 0 } := by
  unfold calculate_totals
  rw [foldl_addMetric]
  simp only [zero_add]
  split_ifs with h1 h2 h2 <;> simp_all [Function.comp_def]

/-- Claim C2 (amended): the TOTALS row sums the fifteen counter/money
fields plus `tcl_seconds` and `sales_count`, recomputes
`conversion_percent` (zero when the summed `incoming` is zero) and
`accurate_cpa` (zero when the summed `sales_count` is zero) on the
summed totals — but `margin` and `acl_seconds` are not summed: they
stay at zero. -/
theorem c2_aggregate_amended (ms : List PublisherMetrics) :
    (calculate_totals ms).incoming = (ms.map (fun m => m.incoming)).sum ∧
    (calculate_totals ms).live = (ms.map (fun m => m.live)).sum ∧
    (calculate_totals ms).completed = (ms.map (fun m => m.completed)).sum ∧
    (calculate_totals ms).ended = (ms.map (fun m => m.ended)).sum ∧
    (calculate_totals ms).connected = (ms.map (fun m => m.connected)).sum ∧
    (calculate_totals ms).paid = (ms.map (fun m => m.paid)).sum ∧
    (calculate_totals ms).converted = (ms.map (fun m => m.converted)).sum ∧
    (calculate_totals ms).no_connect = (ms.map (fun m => m.no_connect)).sum ∧
    (calculate_totals ms).duplicate = (ms.map (fun m => m.duplicate)).sum ∧
    (calculate_totals ms).blocked = (ms.map (fun m => m.blocked)).sum ∧
    (calculate_totals ms).ivr_hangup = (ms.map (fun m => m.ivr_hangup)).sum ∧
    (calculate_totals ms).revenue = (ms.map (fun m => m.revenue)).sum ∧
    (calculate_totals ms).payout = (ms.map (fun m => m.payout)).sum ∧
    (calculate_totals ms).profit = (ms.map (fun m => m.profit)).sum ∧
    (calculate_totals ms).total_cost = (ms.map (fun m => m.total_cost)).sum ∧
    (calculate_totals ms).tcl_seconds = (ms.map (fun m => m.tcl_seconds)).sum ∧
    (calculate_totals ms).sales_count = (ms.map (fun m => m.sales_count)).sum ∧
    (calculate_totals ms).margin = 0 ∧
    (calculate_totals ms).acl_seconds = 0 ∧
    (calculate_totals ms).conversion_percent =
      (if 0 < (ms.map (fun m => m.incoming)).sum then
        (((ms.map (fun m => m.converted)).sum : ℚ) /
          ((ms.map (fun m => m.incoming)).sum : ℚ)) * 100
       else 0) ∧
    (calculate_totals ms).accurate_cpa =
      (if 0 < (ms.map (fun m => m.sales_count)).sum then
        (ms.map (fun m => m.payout)).sum / ((ms.map (fun m => m.sales_count)).sum : ℚ)
       else 0) := by
  rw [calculate_totals_eq]
  exact ⟨rfl, rfl, rfl, rfl, rfl, rfl, rfl, rfl, rfl, rfl, rfl, rfl, rfl, rfl, rfl, rfl, rfl,
    rfl, rfl, rfl, rfl⟩

/-- Counterexample to C2 as stated: a single record with `margin = 1`
and `acl_seconds = 2` aggregates to a TOTALS row whose `margin` and
`acl_seconds` are zero, not the field sums. -/
theorem c2_counterexample :
    (calculate_totals [marginExample]).margin ≠ ([marginExample].map (fun m => m.margin)).sum ∧
    (calculate_totals [marginExample]).acl_seconds ≠
      ([marginExample].map (fun m => m.acl_seconds)).sum := by
  rw [calculate_totals_eq]
  refine ⟨?_, ?_⟩ <;> simp [marginExample]

/-- Enrichment does not change a record's name. -/
theorem enrich_publisher_name (sales : List (String × ℕ)) (m : PublisherMetrics) :
    (enrich sales m).publisher_name = m.publisher_name := by
  simp only [enrich]
  split <;> rfl

/-- A synthesized record carries the name it was built from. -/
theorem mkSalesOnlyMetric_publisher_name (n : String) (sc : ℕ) :
    (mkSalesOnlyMetric n sc).publisher_name = n := by
  simp only [mkSalesOnlyMetric]
  split <;> rfl

/-- Claim C1 (amended): every name in `sales_counts` carrying a
positive count appears in the merged output — enriched when a provider
record has that name, otherwise as the synthesized record with all
call/payout fields zero and `sales_count` from the mapping; a name
mapped to zero and absent from the provider list is omitted.  Every
provider record appears (enriched, name unchanged), with
`sales_count = 0` and `accurate_cpa = 0.0` when the mapping has no
positive count for it. -/
theorem c1_reconciliation_amended (metrics : List PublisherMetrics)
    (sales : List (String × ℕ)) :
    (∀ nc ∈ sales, 0 < nc.2 →
      ∃ m ∈ enhance_metrics_with_accurate_cpa metrics sales, m.publisher_name = nc.1) ∧
    (∀ nc ∈ sales, 0 < nc.2 → (∀ m ∈ metrics, m.publisher_name ≠ nc.1) →
      mkSalesOnlyMetric nc.1 nc.2 ∈ enhance_metrics_with_accurate_cpa metrics sales ∧
      (mkSalesOnlyMetric nc.1 nc.2).incoming = 0 ∧
      (mkSalesOnlyMetric nc.1 nc.2).completed = 0 ∧
      (mkSalesOnlyMetric nc.1 nc.2).payout = 0 ∧
      (mkSalesOnlyMetric nc.1 nc.2).revenue = 0 ∧
      (mkSalesOnlyMetric nc.1 nc.2).sales_count = nc.2) ∧
    (∀ m ∈ metrics,
      enrich sales m ∈ enhance_metrics_with_accurate_cpa metrics sales ∧
      (enrich sales m).publisher_name = m.publisher_name ∧
      (lookupCount sales m.publisher_name = 0 →
        (enrich sales m).sales_count = 0 ∧ (enrich sales m).accurate_cpa = 0)) := by
  have hnames : ∀ n, (List.map (fun m => m.publisher_name) (metrics.map (enrich sales))).contains n =
      (metrics.map (fun m => m.publisher_name)).contains n := by
    intro n
    simp [List.map_map, Function.comp_def, enrich_publisher_name]
  refine ⟨?_, ?_, ?_⟩
  · intro nc hmem hpos
    by_cases hin : nc.1 ∈ metrics.map (fun m => m.publisher_name)
    · obtain ⟨m, hm, hname⟩ := List.mem_map.mp hin
      exact ⟨enrich sales m, by
        unfold enhance_metrics_with_accurate_cpa
        exact List.mem_append_left _ (List.mem_map_of_mem _ hm), by
          rw [enrich_publisher_name]; exact hname⟩
    · refine ⟨mkSalesOnlyMetric nc.1 nc.2, ?_, mkSalesOnlyMetric_publisher_name _ _⟩
      unfold enhance_metrics_with_accurate_cpa
      refine List.mem_append_right _ (List.mem_map_of_mem _ ?_)
      refine List.mem_filter.mpr ⟨hmem, ?_⟩
      simp only [hnames, Bool.and_eq_true, Bool.not_eq_true', decide_eq_true_eq]
      exact ⟨by simpa using hin, hpos⟩
  · intro nc hmem hpos habsent
    refine ⟨?_, ?_, ?_, ?_, ?_, ?_⟩
    · unfold enhance_metrics_with_accurate_cpa
      refine List.mem_append_right _ (List.mem_map_of_mem _ ?_)
      refine List.mem_filter.mpr ⟨hmem, ?_⟩
      simp only [hnames, Bool.and_eq_true, Bool.not_eq_true', decide_eq_true_eq]
      refine ⟨?_, hpos⟩
      simp only [List.contains_eq_any_beq, List.any_eq_false, beq_iff_eq]
      intro n hn
      obtain ⟨m, hm, rfl⟩ := List.mem_map.mp hn
      exact fun he => habsent m hm he.symm
    all_goals
      simp only [mkSalesOnlyMetric]
      split <;> rfl
  · intro m hm
    refine ⟨?_, enrich_publisher_name _ _, ?_⟩
    · unfold enhance_metrics_with_accurate_cpa
      exact List.mem_append_left _ (List.mem_map_of_mem _ hm)
    · intro hzero
      simp [enrich, hzero]

/-- Counterexample to C1 as stated: the name "X" is present in the
sales mapping (with count 0) and in no provider record, yet the merged
output is empty — "X" does not appear. -/
theorem c1_counterexample :
    ("X", 0) ∈ [("X", 0)] ∧
    enhance_metrics_with_accurate_cpa [] [("X", 0)] = [] ∧
    ¬ ∃ m ∈ enhance_metrics_with_accurate_cpa [] [("X", 0)], m.publisher_name = "X" := by
  refine ⟨by decide, by decide, ?_⟩
  rintro ⟨m, hm, -⟩
  simp only [show enhance_metrics_with_accurate_cpa [] [("X", 0)] = [] from by decide] at hm
  exact (List.not_mem_nil m) hm

/-- Witness for C1 at the spec's end-to-end scenario: "Beta" has one
sale and no provider record, and appears in the merged output as the
synthesized record. -/
theorem c1_reconciliation_amended_witness :
    (∃ m ∈ enhance_metrics_with_accurate_cpa [acmeMetric] demoSales,
      m.publisher_name = "Beta") ∧
    mkSalesOnlyMetric "Beta" 1 ∈ enhance_metrics_with_accurate_cpa [acmeMetric] demoSales :=
  ⟨(c1_reconciliation_amended [acmeMetric] demoSales).1 ("Beta", 1) (by decide) (by decide),
    ((c1_reconciliation_amended [acmeMetric] demoSales).2.1 ("Beta", 1) (by decide) (by decide)
      (by decide)).1⟩

/-- Claim C10 (amended): in a window's merged result the names need
not be pairwise distinct — provider-derived records may repeat a name
(all blank/unknown-variant names are coerced to the same "Unknown
Publisher" label and kept) — but the synthesized sales-only suffix has
pairwise-distinct names, none of which collides with a provider
record's name. -/
theorem c10_names_amended (metrics : List PublisherMetrics) (sales : List (String × ℕ))
    (hnd : (sales.map Prod.fst).Nodup) :
    (((enhance_metrics_with_accurate_cpa metrics sales).drop metrics.length).map
      (fun m => m.publisher_name)).Nodup ∧
    ∀ n ∈ ((enhance_metrics_with_accurate_cpa metrics sales).drop metrics.length).map
        (fun m => m.publisher_name),
      n ∉ metrics.map (fun m => m.publisher_name) := by
  have hdrop : (enhance_metrics_with_accurate_cpa metrics sales).drop metrics.length =
      (sales.filter (fun nc =>
        !((metrics.map (enrich sales)).map (fun m => m.publisher_name)).contains nc.1 &&
          decide (0 < nc.2))).map (fun nc => mkSalesOnlyMetric nc.1 nc.2) := by
    unfold enhance_metrics_with_accurate_cpa
    have hlen : (metrics.map (enrich sales)).length = metrics.length := List.length_map _ _
    rw [← hlen, List.drop_left]
  have hmapnames : ∀ (l : List (String × ℕ)),
      (l.map (fun nc => mkSalesOnlyMetric nc.1 nc.2)).map (fun m => m.publisher_name) =
        l.map Prod.fst := by
    intro l
    rw [List.map_map]
    exact List.map_congr_left fun nc _ => mkSalesOnlyMetric_publisher_name nc.1 nc.2
  rw [hdrop, hmapnames]
  constructor
  · exact hnd.sublist ((List.filter_sublist _).map Prod.fst)
  · intro n hn hcontra
    obtain ⟨nc, hncmem, rfl⟩ := List.mem_map.mp hn
    have hfil := (List.mem_filter.mp hncmem).2
    have hconv : ((metrics.map (enrich sales)).map (fun m => m.publisher_name)) =
        metrics.map (fun m => m.publisher_name) := by
      rw [List.map_map]
      exact List.map_congr_left fun m _ => enrich_publisher_name sales m
    rw [hconv] at hfil
    simp only [Bool.and_eq_true, Bool.not_eq_true', decide_eq_true_eq,
      List.contains_eq_any_beq, List.any_eq_false, beq_iff_eq] at hfil
    exact hfil.1 _ hcontra rfl

/-- Counterexample to C10 as stated: two provider rows with a missing
and a whitespace-only publisher name are both coerced to "Unknown
Publisher" and both kept, so the window's result set repeats a name. -/
theorem c10_counterexample :
    ((enhance_metrics_with_accurate_cpa (parse_ringba_data [blankRecord, spaceRecord]) []).map
      (fun m => m.publisher_name)) = ["Unknown Publisher", "Unknown Publisher"] ∧
    ¬ ((enhance_metrics_with_accurate_cpa (parse_ringba_data [blankRecord, spaceRecord]) []).map
      (fun m => m.publisher_name)).Nodup := by
  decide

/-- Witness for C10's amended theorem at the end-to-end scenario. -/
theorem c10_names_amended_witness :
    (((enhance_metrics_with_accurate_cpa [acmeMetric] demoSales).drop 1).map
      (fun m => m.publisher_name)).Nodup :=
  (c10_names_amended [acmeMetric] demoSales (by decide)).1

/-- Claim C4, evaluated at the failing input: a cycle run at 17:05 EDT
does fetch the buffered window 15:00-17:05 EDT, but the label the
summary renders from the window bounds it is handed is
"19:00 - 21:05 EDT" — the 17:05 EDT end rendered as UTC wall time —
not the claimed "15:00 - 17:00 EDT": the 5-minute settling buffer (and
the UTC conversion) leaks into user-facing output. -/
theorem c4_buffer_leak :
    run_monitoring_cycle_reports (mkWall 0 17 5 edtOffset) =
      [(ReportType.twoHour, (mkWall 0 15 0 edtOffset).astimezone 0,
        (mkWall 0 17 5 edtOffset).astimezone 0)] ∧
    cycle_label (mkWall 0 17 5 edtOffset) = some "19:00 - 21:05 EDT" ∧
    "19:00 - 21:05 EDT" ≠ "15:00 - 17:00 EDT" := by
  decide

/-- Claim C5, evaluated at the failing input: a cycle run at 21:00 EDT
produces exactly one report — the end-of-day-formatted summary over
the 19:00-21:00 EDT window — and no additional full-day rollup over
09:00-21:00: the only window start rendered is hour 19, not 9. -/
theorem c5_no_full_day_rollup :
    run_monitoring_cycle_reports (mkWall 0 21 0 edtOffset) =
      [(ReportType.endOfDay, (mkWall 0 19 0 edtOffset).astimezone 0,
        (mkWall 0 21 0 edtOffset).astimezone 0)] ∧
    ((run_monitoring_cycle_reports (mkWall 0 21 0 edtOffset)).map
      (fun r => (r.2.1.astimezone edtOffset).hour)) = [19] ∧
    (19 : ℤ) ≠ 9 := by
  decide

/-- Closed form of the timetable scan of `get_next_report_time`. -/
theorem get_next_report_time_eval (day h m : ℕ) :
    get_next_report_time day h m =
      if h < 11 then (day, 11, 0)
      else if h < 13 then (day, 13, 0)
      else if h < 15 then (day, 15, 0)
      else if h < 17 ∨ (h = 17 ∧ m < 5) then (day, 17, 5)
      else if h < 19 then (day, 19, 0)
      else if h < 21 then (day, 21, 0)
      else (skip_sunday (day + 1), 11, 0) := by
  unfold get_next_report_time
  simp only [report_hours, report_minutes, List.zip_cons_cons, List.zip_nil_right]
  by_cases h1 : h < 11
  · rw [List.find?_cons_of_pos _ (by simp only [decide_eq_true_eq]; omega), if_pos h1]
  · rw [List.find?_cons_of_neg _ (by simp only [decide_eq_true_eq]; omega), if_neg h1]
    by_cases h2 : h < 13
    · rw [List.find?_cons_of_pos _ (by simp only [decide_eq_true_eq]; omega), if_pos h2]
    · rw [List.find?_cons_of_neg _ (by simp only [decide_eq_true_eq]; omega), if_neg h2]
      by_cases h3 : h < 15
      · rw [List.find?_cons_of_pos _ (by simp only [decide_eq_true_eq]; omega), if_pos h3]
      · rw [List.find?_cons_of_neg _ (by simp only [decide_eq_true_eq]; omega), if_neg h3]
        by_cases h4 : h < 17 ∨ (h = 17 ∧ m < 5)
        · rw [List.find?_cons_of_pos _ (by simp only [decide_eq_true_eq]; omega), if_pos h4]
        · rw [List.find?_cons_of_neg _ (by simp only [decide_eq_true_eq]; omega), if_neg h4]
          by_cases h5 : h < 19
          · rw [List.find?_cons_of_pos _ (by simp only [decide_eq_true_eq]; omega), if_pos h5]
          · rw [List.find?_cons_of_neg _ (by simp only [decide_eq_true_eq]; omega), if_neg h5]
            by_cases h6 : h < 21
            · rw [List.find?_cons_of_pos _ (by simp only [decide_eq_true_eq]; omega), if_pos h6]
            · rw [List.find?_cons_of_neg _ (by simp only [decide_eq_true_eq]; omega),
                if_neg h6, List.find?_nil]

/-- Claim C6 (amended): `get_next_report_time` is a pure function of
the wall clock; it returns the first timetable slot strictly after
`now` when one remains today — regardless of the weekday, so Saturday
20:00 yields Saturday 21:00 and Sunday mornings yield Sunday slots —
and only once the day's slots are exhausted does it roll to 11:00 on
the next day, skipping Sunday; the result is always strictly after
`now`. -/
theorem c6_next_trigger_amended (day h m s : ℕ) (hh : h < 24) (hm : m < 60) (hs : s < 60) :
    day * 86400 + h * 3600 + m * 60 + s
      < (get_next_report_time day h m).1 * 86400 + (get_next_report_time day h m).2.1 * 3600 +
        (get_next_report_time day h m).2.2 * 60 ∧
    (((get_next_report_time day h m).1 = day ∧
        ((get_next_report_time day h m).2.1, (get_next_report_time day h m).2.2) ∈
          report_hours.zip report_minutes ∧
        h * 60 + m <
          (get_next_report_time day h m).2.1 * 60 + (get_next_report_time day h m).2.2 ∧
        (∀ hm2 ∈ report_hours.zip report_minutes, h * 60 + m < hm2.1 * 60 + hm2.2 →
          (get_next_report_time day h m).2.1 * 60 + (get_next_report_time day h m).2.2 ≤
            hm2.1 * 60 + hm2.2)) ∨
      ((∀ hm2 ∈ report_hours.zip report_minutes, hm2.1 * 60 + hm2.2 ≤ h * 60 + m) ∧
        get_next_report_time day h m = (skip_sunday (day + 1), 11, 0) ∧
        (get_next_report_time day h m).1 % 7 ≠ 6 ∧ day < (get_next_report_time day h m).1)) := by
  have hzip : report_hours.zip report_minutes =
      [(11, 0), (13, 0), (15, 0), (17, 5), (19, 0), (21, 0)] := by decide
  rw [get_next_report_time_eval, hzip]
  split_ifs with h1 h2 h3 h4 h5 h6
  all_goals
    first
    | exact ⟨by dsimp only <;> omega, Or.inl ⟨rfl, by dsimp only <;> decide,
        by dsimp only <;> omega, by
          intro hm2 hmem hlt
          fin_cases hmem <;> dsimp only <;> omega⟩⟩
    | refine ⟨?_, Or.inr ⟨?_, rfl, ?_, ?_⟩⟩ <;>
      · dsimp only
        try intro hm2 hmem
        try fin_cases hmem
        all_goals try unfold skip_sunday
        all_goals try split_ifs
        all_goals omega

/-- Counterexample to C6 as stated: with the day convention
`day % 7 = weekday` (0 = Monday), day 5 is a Saturday and day 7 the
following Monday; at Saturday 20:00 the scan still finds the 21:00
slot of the same Saturday — not Monday 11:00 as the claim asserts —
and on a Sunday morning (day 6, 10:00) the function returns a Sunday
trigger rather than skipping to a non-Sunday day. -/
theorem c6_counterexample :
    get_next_report_time 5 20 0 = (5, 21, 0) ∧
    get_next_report_time 5 20 0 ≠ (7, 11, 0) ∧ (5 : ℕ) % 7 = 5 ∧
    get_next_report_time 6 10 0 = (6, 11, 0) ∧ (6 : ℕ) % 7 = 6 := by
  decide

/-- Witness for C6's amended theorem at Saturday 20:00. -/
theorem c6_next_trigger_amended_witness :
    5 * 86400 + 20 * 3600 + 0 * 60 + 0
      < (get_next_report_time 5 20 0).1 * 86400 + (get_next_report_time 5 20 0).2.1 * 3600 +
        (get_next_report_time 5 20 0).2.2 * 60 :=
  (c6_next_trigger_amended 5 20 0 0 (by decide) (by decide) (by decide)).1

/-- `List.lookup` on a cons cell, stated with propositional equality
of the keys. -/
theorem lookup_cons_pair (x : String) (kv : String × ℕ) (rest : List (String × ℕ)) :
    (List.lookup x (kv :: rest)) = if x = kv.1 then some kv.2 else List.lookup x rest := by
  rcases kv with ⟨k, v⟩
  by_cases hx : x = k
  · simp [List.lookup, hx]
  · have hb : (x == k) = false := by simpa using hx
    simp [List.lookup, hb, hx]

/-- Bumping one key raises exactly that key's looked-up count by one. -/
theorem lookup_bump (d : List (String × ℕ)) (n x : String) :
    (((bump d n).lookup x).getD 0) = ((d.lookup x).getD 0) + (if x = n then 1 else 0) := by
  induction d with
  | nil =>
    rw [show bump [] n = [(n, 1)] from rfl, lookup_cons_pair]
    by_cases hx : x = n <;> simp [List.lookup, hx]
  | cons kv rest ih =>
    by_cases hk : kv.1 = n
    · rw [show bump (kv :: rest) n = (kv.1, kv.2 + 1) :: rest from by simp [bump, hk],
        lookup_cons_pair, lookup_cons_pair]
      by_cases hx : x = kv.1
      · have hxn : x = n := hx.trans hk
        simp [hx, hxn, hk]
      · have hxn : ¬ x = n := fun he => hx (he.trans hk.symm)
        simp [hx, hxn, hk]
    · rw [show bump (kv :: rest) n = kv :: bump rest n from by simp [bump, hk],
        lookup_cons_pair, lookup_cons_pair]
      by_cases hx : x = kv.1
      · have hxn : ¬ x = n := fun he => hk (hx.symm.trans he)
        simp [hx, hxn, hk]
      · simp [hx, ih]

/-- The accumulated dict after the row loop: each name's count grows by
the number of accepted in-range rows carrying that name. -/
theorem process_loop_count (rows : List SheetRow) (s e : SaleTime) (n : String)
    (d : List (String × ℕ)) :
    (((rows.foldl (process_row_step s e) d).lookup n).getD 0) =
      ((d.lookup n).getD 0) +
        (rows.filterMap parse_sale_row).countP
          (fun pt => pt.1 == n && decide (s.key ≤ pt.2.key) && decide (pt.2.key ≤ e.key)) := by
  induction rows generalizing d with
  | nil => simp
  | cons r rows ih =>
    rw [List.foldl_cons, ih]
    rcases hp : parse_sale_row r with _ | pt
    · rw [show process_row_step s e d r = d from by simp [process_row_step, hp],
        List.filterMap_cons_none hp]
    · rw [List.filterMap_cons_some hp, List.countP_cons]
      by_cases hin : s.key ≤ pt.2.key ∧ pt.2.key ≤ e.key
      · rw [show process_row_step s e d r = bump d pt.1 from by
            simp [process_row_step, hp, hin],
          lookup_bump]
        by_cases hn : pt.1 = n
        · have hb : (pt.1 == n && decide (s.key ≤ pt.2.key) && decide (pt.2.key ≤ e.key)) =
              true := by simp [hn, hin.1, hin.2]
          rw [hb, if_pos (show n = pt.1 from hn.symm)]
          simp
          omega
        · have hb : (pt.1 == n && decide (s.key ≤ pt.2.key) && decide (pt.2.key ≤ e.key)) =
              false := by simp [hn]
          rw [hb, if_neg (show ¬ n = pt.1 from fun he => hn he.symm)]
          simp
      · rw [show process_row_step s e d r = d from by simp [process_row_step, hp, hin]]
        have hb : (pt.1 == n && decide (s.key ≤ pt.2.key) && decide (pt.2.key ≤ e.key)) =
            false := by
          rcases not_and_or.mp hin with hlo | hhi
          · simp [hlo]
          · simp [hhi]
        rw [hb]
        simp

/-- Claim C7 (amended): the sales fetch groups by name and counts
exactly the parseable rows (publisher non-blank, not the sentinel
"Not Found", and not the literal text "nan" of a missing cell) whose
reconstructed timestamp `t` satisfies `start ≤ t ≤ end` — a closed
interval: a row at exactly `end` is included, not excluded. -/
theorem c7_sales_window_amended (rows : List SheetRow) (s e : SaleTime) (n : String) :
    lookupCount (process_spreadsheet_data rows s e) n =
      (rows.filterMap parse_sale_row).countP
        (fun pt => pt.1 == n && decide (s.key ≤ pt.2.key) && decide (pt.2.key ≤ e.key)) := by
  unfold process_spreadsheet_data lookupCount
  rw [process_loop_count]
  simp

/-- Counterexample to C7 as stated: the row timestamped exactly at the
window end (5:00:30 PM reconstructs to 17:00, seconds dropped) is
counted, though the claim's half-open window excludes it; and the row
whose publisher cell reads "nan" — non-blank and distinct from "Not
Found", so the claim would count it — is skipped.  The fetch returns
exactly one sale for "Publisher A" and none for "nan". -/
theorem c7_counterexample :
    parse_sale_row boundaryRow = some ("Publisher A", windowEnd) ∧
    parse_sale_row nanRow = none ∧
    process_spreadsheet_data [boundaryRow, nanRow] windowStart windowEnd =
      [("Publisher A", 1)] := by
  decide

/-- Claim C8: idempotent ingestion.  Submitting an event whose fresh
`call_id` has no recorded row yet: the first submit succeeds and
leaves exactly one recorded row and one processed entry for the id;
the second submit of the same event answers `duplicate` and changes
nothing — no queue append, no write-through, no state change. -/
theorem c8_idempotent_ingestion (s : IngestState) (b : WebhookBody) (cid now now2 : String)
    (hcid : b.call_id = some cid) (hne : cid ≠ "") (hfresh : cid ∉ s.processed)
    (hrows : rowsForCall s cid = 0) :
    (ringba_webhook s b now).1 = .queued ∧
    rowsForCall (ringba_webhook s b now).2 cid = 1 ∧
    ((ringba_webhook s b now).2).processed.count cid = 1 ∧
    (ringba_webhook ((ringba_webhook s b now).2) b now2).1 = .duplicateStatus ∧
    (ringba_webhook ((ringba_webhook s b now).2) b now2).2 = (ringba_webhook s b now).2 := by
  have hmark : mark_processed s.processed cid = s.processed ++ [cid] := by
    simp [mark_processed, hfresh]
  have hhead : (buildRow b cid now).head? = some cid := rfl
  have hcount0 : s.processed.count cid = 0 := List.count_eq_zero.mpr hfresh
  have hmem2 : cid ∈ s.processed ++ [cid] :=
    List.mem_append_right _ (List.mem_singleton.mpr rfl)
  have hfil : ((s.queue ++ s.sink).filter (fun r => r.head? = some cid)) = [] :=
    List.length_eq_zero.mp hrows
  rw [List.filter_append, List.append_eq_nil] at hfil
  by_cases hq : s.queue.length ≥ maxQueueSize
  · have hrun : ringba_webhook s b now =
        (.queued,
          { s with
            sink := s.sink ++ [buildRow b cid now]
            processed := s.processed ++ [cid] }) := by
      unfold ringba_webhook
      rw [hcid]
      simp only [if_neg hne, if_neg hfresh, if_pos hq, hmark]
    rw [hrun]
    refine ⟨rfl, ?_, ?_, ?_, ?_⟩
    · simp [rowsForCall, List.filter_append, hfil.1, hfil.2, hhead]
    · simp [List.count_append, hcount0]
    · unfold ringba_webhook
      rw [hcid]
      simp [hne, hmem2]
    · unfold ringba_webhook
      rw [hcid]
      simp [hne, hmem2]
  · have hrun : ringba_webhook s b now =
        (.queued,
          { s with
            queue := s.queue ++ [buildRow b cid now]
            processed := s.processed ++ [cid] }) := by
      unfold ringba_webhook
      rw [hcid]
      simp only [if_neg hne, if_neg hfresh, if_neg hq, hmark]
    rw [hrun]
    refine ⟨rfl, ?_, ?_, ?_, ?_⟩
    · simp [rowsForCall, List.filter_append, hfil.1, hfil.2, hhead]
    · simp [List.count_append, hcount0]
    · unfold ringba_webhook
      rw [hcid]
      simp [hne, hmem2]
    · unfold ringba_webhook
      rw [hcid]
      simp [hne, hmem2]

/-- Witness for C8 from the empty state. -/
theorem c8_idempotent_ingestion_witness :
    (ringba_webhook {} demoBody "t1").1 = .queued ∧
    rowsForCall (ringba_webhook {} demoBody "t1").2 "CA123" = 1 ∧
    ((ringba_webhook {} demoBody "t1").2).processed.count "CA123" = 1 ∧
    (ringba_webhook ((ringba_webhook {} demoBody "t1").2) demoBody "t2").1 = .duplicateStatus ∧
    (ringba_webhook ((ringba_webhook {} demoBody "t1").2) demoBody "t2").2 =
      (ringba_webhook {} demoBody "t1").2 :=
  c8_idempotent_ingestion {} demoBody "CA123" "t1" "t2" rfl (by decide) (by decide) (by decide)

/-- Claim C9: capacity fallback.  A fresh event arriving while the
queue holds its maximum of 100 entries is not appended to the queue:
its row is written through to the sheet immediately, the id is marked
processed exactly once, and the caller still receives the success
response. -/
theorem c9_capacity_fallback (s : IngestState) (b : WebhookBody) (cid now : String)
    (hcid : b.call_id = some cid) (hne : cid ≠ "") (hfresh : cid ∉ s.processed)
    (hfull : s.queue.length = maxQueueSize) :
    (ringba_webhook s b now).1 = .queued ∧
    ((ringba_webhook s b now).2).queue = s.queue ∧
    ((ringba_webhook s b now).2).sink = s.sink ++ [buildRow b cid now] ∧
    ((ringba_webhook s b now).2).processed = s.processed ++ [cid] ∧
    ((ringba_webhook s b now).2).processed.count cid = 1 := by
  have hq : s.queue.length ≥ maxQueueSize := le_of_eq hfull.symm
  have hcount0 : s.processed.count cid = 0 := List.count_eq_zero.mpr hfresh
  have hmark : mark_processed s.processed cid = s.processed ++ [cid] := by
    simp [mark_processed, hfresh]
  have hrun : ringba_webhook s b now =
      (.queued,
        { s with
          sink := s.sink ++ [buildRow b cid now]
          processed := s.processed ++ [cid] }) := by
    unfold ringba_webhook
    rw [hcid]
    simp only [if_neg hne, if_neg hfresh, if_pos hq, hmark]
  rw [hrun]
  exact ⟨rfl, rfl, rfl, rfl, by simp [List.count_append, hcount0]⟩

/-- Witness for C9 at a full queue. -/
theorem c9_capacity_fallback_witness :
    (ringba_webhook fullQueueState demoBody "t1").1 = .queued ∧
    ((ringba_webhook fullQueueState demoBody "t1").2).queue = fullQueueState.queue ∧
    ((ringba_webhook fullQueueState demoBody "t1").2).sink =
      fullQueueState.sink ++ [buildRow demoBody "CA123" "t1"] :=
  have h := c9_capacity_fallback fullQueueState demoBody "CA123" "t1" rfl (by decide) (by decide)
    (by decide)
  ⟨h.1, h.2.1, h.2.2.1⟩

end CpaMonitor
